import Mathlib

/-!
Shallow embedding of the tool discovery/registry subsystem of the
ms-agentic-framework-accelerator repository, together with proofs about it.

Embedded source files:
- src/tools/_decorators.py   (the @tool marker and metadata attachment)
- src/tools/_registry.py     (the ToolRegistry singleton: an insertion-ordered
  dict from tool identifier to a {"function": .., "metadata": ..} entry)
- src/agents/agent_factory.py (tool-set resolution for an agent config and
  the provider-fallback chat-client construction)

Python dicts are embedded as insertion-ordered association lists with the
standard dict-assignment semantics (assignment to an existing key replaces the
value in place keeping the key's position; assignment to a new key appends).
Python callables are embedded as records carrying the attributes the code
reads (identity, dunder name, docstring, module) plus the optional
attached tool-marker metadata attribute.
-/

set_option autoImplicit false

namespace MSAF

/-- The tool-marker metadata record attached by the decorator in
src/tools/_decorators.py (the func._tool_metadata dict): keys domain, name,
description, tags, mock, requires_api_key, signature, module.  The captured
inspect signature is embedded opaquely as a numeric handle. -/
structure ToolMetadata where
  domain : String
  name : String
  description : String
  tags : List String
  mock : Bool
  requires_api_key : Option String
  signature : Nat
  module : String
deriving DecidableEq, Repr

/-- A Python callable as the embedded code observes it: an object identity
(used by the `in` / `not in` dedup checks), its dunder name and docstring,
its module, an opaque handle for its inspect signature, and the optional
attached _tool_metadata attribute. -/
structure PyFunc where
  fid : Nat
  fname : String
  doc : Option String
  module : String
  sigId : Nat
  toolMeta : Option ToolMetadata
deriving DecidableEq, Repr

/-- One catalog entry: the value dict {"function": func, "metadata": metadata}
stored by ToolRegistry.register_tool. -/
structure ToolEntry where
  function : PyFunc
  metadata : ToolMetadata
deriving DecidableEq, Repr

/-- Python string truthiness for `x or dflt` on an Optional[str]:
None and the empty string are falsy. -/
def pyOrStr (x : Option String) (dflt : String) : String :=
  match x with
  | some s => if s = "" then dflt else s
  | none => dflt

/-- The @tool decorator of src/tools/_decorators.py applied to a callable.
It computes the metadata dict exactly as the source does and returns the same
callable with the _tool_metadata attribute attached:
tags defaults to [] when None; description defaults to
(func.doc or (fname ++ " function")).strip() when None; name defaults to
func.fname via Python `or` truthiness. -/
def tool (domain : String) (name : Option String) (description : Option String)
    (tags : Option (List String)) (mock : Bool) (requires_api_key : Option String)
    (func : PyFunc) : PyFunc :=
  let tags2 := tags.getD []
  let func_description :=
    match description with
    | some d => d
    | none => (pyOrStr func.doc (func.fname ++ " function")).trim
  { func with
      toolMeta := some
        { domain := domain
          name := pyOrStr name func.fname
          description := func_description
          tags := tags2
          mock := mock
          requires_api_key := requires_api_key
          signature := func.sigId
          module := func.module } }

/-- The registry's _tools dict: an insertion-ordered mapping from tool
identifier to entry. -/
abbrev Catalog := List (String × ToolEntry)

/-- Python dict assignment d[k] = v on an insertion-ordered association list:
replace in place if the key is present (keeping its position), else append. -/
def dictInsert : Catalog → String → ToolEntry → Catalog
  | [], k, v => [(k, v)]
  | (k2, v2) :: rest, k, v =>
      if k2 = k then (k, v) :: rest else (k2, v2) :: dictInsert rest k v

/-- Python dict.get(k): first (and with unique keys, only) binding of k. -/
def dictGet : Catalog → String → Option ToolEntry
  | [], _ => none
  | (k2, v) :: rest, k => if k2 = k then some v else dictGet rest k

/-- ToolRegistry.register_tool: self._tools[tool_id] =
{"function": func, "metadata": metadata}. -/
def register_tool (tools : Catalog) (tool_id : String) (func : PyFunc)
    (metadata : ToolMetadata) : Catalog :=
  dictInsert tools tool_id { function := func, metadata := metadata }

/-- ToolRegistry.get_tools_by_domain: list comprehension over
self._tools.items() keeping entries whose metadata["domain"] == domain. -/
def get_tools_by_domain (tools : Catalog) (domain : String) : List ToolEntry :=
  (tools.filter (fun p => decide (p.2.metadata.domain = domain))).map Prod.snd

/-- ToolRegistry.get_tools_by_tags: list comprehension over
self._tools.values() keeping entries for which any queried tag is in the
entry's metadata["tags"]. -/
def get_tools_by_tags (tools : Catalog) (tags : List String) : List ToolEntry :=
  (tools.map Prod.snd).filter
    (fun t => tags.any (fun tag => decide (tag ∈ t.metadata.tags)))

/-- ToolRegistry.get_tool: self._tools.get(tool_id), None when absent. -/
def get_tool (tools : Catalog) (tool_id : String) : Option ToolEntry :=
  dictGet tools tool_id

/-- The agent configuration fields AgentFactory._discover_tools_for_agent
reads: config.get("tool_domains", []), the presence-tested "tool_tags" key,
and config.get("exclude_tools", []). -/
structure AgentConfig where
  tool_domains : List String
  tool_tags : Option (List String)
  exclude_tools : List String
deriving DecidableEq, Repr

/-- One iteration of the dedup-append loop in _discover_tools_for_agent:
if tool["function"] not in tool_functions: tool_functions.append(...). -/
def dedupStep (acc : List PyFunc) (f : PyFunc) : List PyFunc :=
  if f ∈ acc then acc else acc ++ [f]

/-- The exclusion test of _discover_tools_for_agent:
getattr(func, "_tool_metadata", {}).get("name") not in excluded is false,
i.e. the function's attached metadata name is one of the excluded names
(a callable with no attached metadata yields None, never excluded). -/
def excludedBy (excluded : List String) (f : PyFunc) : Bool :=
  match f.toolMeta with
  | some md => decide (md.name ∈ excluded)
  | none => false

/-- AgentFactory._discover_tools_for_agent: walk tool_domains collecting
each domain's tools with dedup, then (when the "tool_tags" key is present)
the tag-matched tools with dedup, then filter out excluded names when the
exclude_tools list is non-empty. -/
def discover_tools_for_agent (tools : Catalog) (cfg : AgentConfig) : List PyFunc :=
  let afterDomains := cfg.tool_domains.foldl
    (fun acc d => (get_tools_by_domain tools d).foldl
      (fun acc2 t => dedupStep acc2 t.function) acc) []
  let afterTags :=
    match cfg.tool_tags with
    | none => afterDomains
    | some ts => (get_tools_by_tags tools ts).foldl
        (fun acc2 t => dedupStep acc2 t.function) afterDomains
  if cfg.exclude_tools.isEmpty then afterTags
  else afterTags.filter (fun f => !(excludedBy cfg.exclude_tools f))

/-- First-seen-wins deduplication of a list of callables. -/
def dedupKeepFirst (fs : List PyFunc) : List PyFunc :=
  fs.foldl dedupStep []

/-- The ResolvedToolSet as the spec describes it: the union, in first-seen
order with duplicate callables collapsed keeping the first occurrence, of all
tools whose domain is in tool_domains and all tools whose tag set intersects
tool_tags, minus every tool whose marker name is in exclude_tools. -/
def resolvedToolSetSpec (tools : Catalog) (cfg : AgentConfig) : List PyFunc :=
  let domainFns := cfg.tool_domains.flatMap
    (fun d => (get_tools_by_domain tools d).map ToolEntry.function)
  let tagFns :=
    match cfg.tool_tags with
    | none => []
    | some ts => (get_tools_by_tags tools ts).map ToolEntry.function
  (dedupKeepFirst (domainFns ++ tagFns)).filter
    (fun f => !(excludedBy cfg.exclude_tools f))

/-- Errors arising in AgentFactory._build_chat_client and the per-provider
builders.  The first three kinds are exceptions the builders raise (missing
credential env var, missing optional SDK import, bad credential type);
noValidProviders is the ValueError raised when the loop ends with no recorded
exception.  unsupportedProvider is not an exception the code ever raises: it
is the formalisation of the spec's notion that an unsupported provider name
is itself a construction failure, used to state the claim about failures. -/
inductive BuildError where
  | missingCredential (envVar : String)
  | importFailure (msg : String)
  | unsupportedCredentialType (s : String)
  | noValidProviders
  | unsupportedProvider (p : String)
deriving DecidableEq, Repr

/-- A constructed chat client, identified opaquely. -/
structure ChatClient where
  cid : Nat
deriving DecidableEq, Repr

/-- The environment the three per-provider builders
(_build_azure_client, _build_openrouter_client, _build_openai_client) run
in: each either returns a client or raises an exception, determined by env
vars, credentials and SDK availability, all external to the loop. -/
instance exceptBuildDecEq : DecidableEq (Except BuildError ChatClient) :=
  fun x y =>
    match x, y with
    | Except.ok a, Except.ok b =>
        if h : a = b then isTrue (by rw [h])
        else isFalse (fun hh => h (by cases hh; rfl))
    | Except.error a, Except.error b =>
        if h : a = b then isTrue (by rw [h])
        else isFalse (fun hh => h (by cases hh; rfl))
    | Except.ok _, Except.error _ => isFalse (fun hh => by cases hh)
    | Except.error _, Except.ok _ => isFalse (fun hh => by cases hh)

structure ProviderEnv where
  azure : Except BuildError ChatClient
  openrouter : Except BuildError ChatClient
  openai : Except BuildError ChatClient
deriving DecidableEq, Repr

/-- The dispatch inside the provider loop's try block: a supported provider
name runs its builder (some outcome); an unsupported name hits the else
branch, which logs and continues without raising (none). -/
def tryProvider (env : ProviderEnv) (p : String) : Option (Except BuildError ChatClient) :=
  if p = "azure" then some env.azure
  else if p = "openrouter" then some env.openrouter
  else if p = "openai" then some env.openai
  else none

/-- The provider loop of _build_chat_client with its last_error accumulator:
a raised exception is recorded and the loop continues; an unsupported name
continues without recording; a built client returns immediately; after the
loop the recorded exception is re-raised, or a generic ValueError
("No valid providers configured") when none was recorded. -/
def buildClientLoop (env : ProviderEnv) : List String → Option BuildError →
    Except BuildError ChatClient
  | [], some e => Except.error e
  | [], none => Except.error BuildError.noValidProviders
  | p :: rest, acc =>
      match tryProvider env p with
      | none => buildClientLoop env rest acc
      | some (Except.error e) => buildClientLoop env rest (some e)
      | some (Except.ok c) => Except.ok c

/-- The model section of the YAML config as _build_chat_client reads it:
the "providers" list (absent key modelled as []) and the legacy single
"provider" key. -/
structure ModelConfig where
  providers : List String
  provider : Option String
deriving DecidableEq, Repr

/-- Provider-list resolution in _build_chat_client: an absent or empty
providers list falls back to the single legacy provider field, defaulting to
"azure", lower-cased (the lower-casing is applied only on the legacy path). -/
def resolveProviders (mc : ModelConfig) : List String :=
  if mc.providers.isEmpty then [(mc.provider.getD "azure").toLower]
  else mc.providers

/-- AgentFactory._build_chat_client on the model section of a config. -/
def build_chat_client (env : ProviderEnv) (mc : ModelConfig) :
    Except BuildError ChatClient :=
  buildClientLoop env (resolveProviders mc) none

/-- The first provider in the list whose builder returns a client. -/
def firstSuccess (env : ProviderEnv) : List String → Option ChatClient
  | [] => none
  | p :: rest =>
      match tryProvider env p with
      | some (Except.ok c) => some c
      | _ => firstSuccess env rest

/-- The last exception raised while walking the whole provider list
(unsupported names raise nothing). -/
def lastRaised (env : ProviderEnv) : List String → Option BuildError →
    Option BuildError
  | [], acc => acc
  | p :: rest, acc =>
      match tryProvider env p with
      | some (Except.error e) => lastRaised env rest (some e)
      | _ => lastRaised env rest acc

/-- The spec-side notion of a candidate provider's construction failure:
a raised exception, or — for a provider name the dispatch does not support —
an unsupported-provider failure.  A candidate that builds a client has no
failure. -/
def candidateFailure (env : ProviderEnv) (p : String) : Option BuildError :=
  match tryProvider env p with
  | none => some (BuildError.unsupportedProvider p)
  | some (Except.error e) => some e
  | some (Except.ok _) => none

/-- The registry with Python object identity made explicit, for the
list_all_tools aliasing question: entry dicts live in an addressable store
(addresses are indices into heap) and the catalog maps identifiers to entry
addresses.  dict.copy() duplicates the top-level mapping but shares the entry
addresses. -/
structure RegistryRefState where
  heap : List ToolEntry
  tools : List (String × Nat)
deriving DecidableEq, Repr

/-- ToolRegistry.list_all_tools: return self._tools.copy() — a fresh
top-level mapping holding the same identifier-to-entry-address bindings. -/
def list_all_tools (s : RegistryRefState) : List (String × Nat) :=
  s.tools

/-- The catalog as content: each identifier with the entry its address
currently holds. -/
def catalogView (s : RegistryRefState) : List (String × Option ToolEntry) :=
  s.tools.map (fun p => (p.1, s.heap[p.2]?))

/-- The class-level state of the ToolRegistry singleton: _instance (an object
identity when one exists), a counter supplying fresh identities, the shared
_tools mapping, and the _initialized flag. -/
structure ClassState where
  inst : Option Nat
  nextId : Nat
  tools : Catalog
  initialized : Bool
deriving DecidableEq, Repr

/-- ToolRegistry.__new__: create the single instance if none exists,
otherwise return the existing one. -/
def ToolRegistry_new (s : ClassState) : ClassState × Nat :=
  match s.inst with
  | some i => (s, i)
  | none => ({ s with inst := some s.nextId, nextId := s.nextId + 1 }, s.nextId)

/-- ToolRegistry.__init__: on the first initialization reset _tools to empty
and set _initialized; afterwards do nothing. -/
def ToolRegistry_init (s : ClassState) : ClassState :=
  if s.initialized then s else { s with tools := [], initialized := true }

/-- A full ToolRegistry() construction: Python runs __new__ then __init__ on
the returned instance. -/
def ToolRegistry_construct (s : ClassState) : ClassState × Nat :=
  let p := ToolRegistry_new s
  (ToolRegistry_init p.1, p.2)

/-! ### Helper lemmas about the dict embedding -/

theorem dictGet_dictInsert_self (l : Catalog) (k : String) (v : ToolEntry) :
    dictGet (dictInsert l k v) k = some v := by
  induction l with
  | nil => simp [dictInsert, dictGet]
  | cons p rest ih =>
      by_cases h : p.1 = k
      · simp [dictInsert, dictGet, h]
      · simp [dictInsert, dictGet, h, ih]

theorem dictGet_dictInsert_ne (l : Catalog) (k k2 : String) (v : ToolEntry)
    (h : k2 ≠ k) : dictGet (dictInsert l k v) k2 = dictGet l k2 := by
  have h2 : ¬(k = k2) := fun hh => h hh.symm
  induction l with
  | nil => simp [dictInsert, dictGet, h2]
  | cons p rest ih =>
      by_cases hp : p.1 = k
      · simp [dictInsert, dictGet, hp, h2]
      · by_cases hp2 : p.1 = k2
        · simp [dictInsert, dictGet, hp, hp2, h, h2]
        · simp [dictInsert, dictGet, hp, hp2, ih]

theorem mem_keys_dictInsert (l : Catalog) (k x : String) (v : ToolEntry)
    (h : x ∈ (dictInsert l k v).map Prod.fst) :
    x ∈ l.map Prod.fst ∨ x = k := by
  induction l with
  | nil =>
      simp only [dictInsert, List.map_cons, List.map_nil, List.mem_singleton] at h
      exact Or.inr h
  | cons p rest ih =>
      simp only [List.map_cons, List.mem_cons]
      by_cases hp : p.1 = k
      · simp only [dictInsert, hp, if_true, List.map_cons, List.mem_cons] at h
        rcases h with h | h
        · exact Or.inr h
        · exact Or.inl (Or.inr h)
      · simp only [dictInsert, hp, if_false, List.map_cons, List.mem_cons] at h
        rcases h with h | h
        · exact Or.inl (Or.inl h)
        · rcases ih h with h2 | h2
          · exact Or.inl (Or.inr h2)
          · exact Or.inr h2

theorem keys_dictInsert_self (l : Catalog) (k : String) (v : ToolEntry) :
    k ∈ (dictInsert l k v).map Prod.fst := by
  induction l with
  | nil => simp [dictInsert]
  | cons p rest ih =>
      by_cases hp : p.1 = k
      · simp [dictInsert, hp]
      · simp only [dictInsert, hp, if_false, List.map_cons, List.mem_cons]
        exact Or.inr ih

theorem nodup_keys_dictInsert (l : Catalog) (k : String) (v : ToolEntry)
    (h : (l.map Prod.fst).Nodup) :
    ((dictInsert l k v).map Prod.fst).Nodup := by
  induction l with
  | nil => simp [dictInsert]
  | cons p rest ih =>
      simp only [List.map_cons, List.nodup_cons] at h
      by_cases hp : p.1 = k
      · simp only [dictInsert, hp, if_true, List.map_cons, List.nodup_cons]
        exact ⟨by rw [← hp]; exact h.1, h.2⟩
      · simp only [dictInsert, hp, if_false, List.map_cons, List.nodup_cons]
        refine ⟨fun hmem => ?_, ih h.2⟩
        rcases mem_keys_dictInsert rest k p.1 v hmem with h2 | h2
        · exact h.1 h2
        · exact hp h2

theorem length_dictInsert_mem (l : Catalog) (k : String) (v : ToolEntry)
    (h : k ∈ l.map Prod.fst) : (dictInsert l k v).length = l.length := by
  induction l with
  | nil => simp at h
  | cons p rest ih =>
      by_cases hp : p.1 = k
      · simp [dictInsert, hp]
      · simp only [List.map_cons, List.mem_cons] at h
        rcases h with h | h
        · exact absurd h.symm hp
        · simp [dictInsert, hp, ih h]

theorem filter_key_dictInsert (l : Catalog) (k : String) (v : ToolEntry)
    (h : (l.map Prod.fst).Nodup) :
    (dictInsert l k v).filter (fun p => decide (p.1 = k)) = [(k, v)] := by
  induction l with
  | nil => simp [dictInsert]
  | cons p rest ih =>
      simp only [List.map_cons, List.nodup_cons] at h
      by_cases hp : p.1 = k
      · have hnil : rest.filter (fun q => decide (q.1 = k)) = [] := by
          rw [List.filter_eq_nil_iff]
          intro a ha
          simp only [decide_eq_true_eq]
          intro hak
          apply h.1
          rw [← hp] at hak
          rw [← hak]
          exact List.mem_map_of_mem Prod.fst ha
        simp [dictInsert, hp, List.filter_cons, hnil]
      · have hrec := ih h.2
        simpa [dictInsert, hp, List.filter_cons] using hrec

/-! ### Helper lemmas about the query operations -/

theorem mem_get_tools_by_domain (tools : Catalog) (d : String) (e : ToolEntry) :
    e ∈ get_tools_by_domain tools d ↔
      (∃ tid, (tid, e) ∈ tools) ∧ e.metadata.domain = d := by
  simp only [get_tools_by_domain, List.mem_map, List.mem_filter,
    decide_eq_true_eq]
  constructor
  · rintro ⟨⟨tid, e2⟩, ⟨hmem, hdom⟩, rfl⟩
    exact ⟨⟨tid, hmem⟩, hdom⟩
  · rintro ⟨⟨tid, hmem⟩, hdom⟩
    exact ⟨(tid, e), ⟨hmem, hdom⟩, rfl⟩

theorem mem_get_tools_by_tags (tools : Catalog) (ts : List String) (e : ToolEntry) :
    e ∈ get_tools_by_tags tools ts ↔
      e ∈ tools.map Prod.snd ∧ ∃ t ∈ ts, t ∈ e.metadata.tags := by
  simp [get_tools_by_tags, List.mem_filter, List.any_eq_true]

/-! ### Helper lemmas about tool-set resolution -/

theorem excludedBy_nil (f : PyFunc) : excludedBy [] f = false := by
  cases h : f.toolMeta <;> simp [excludedBy, h]

theorem mem_foldl_dedupStep (fs : List PyFunc) :
    ∀ (acc : List PyFunc) (x : PyFunc),
      x ∈ fs.foldl dedupStep acc ↔ x ∈ acc ∨ x ∈ fs := by
  induction fs with
  | nil => intro acc x; simp
  | cons f rest ih =>
      intro acc x
      simp only [List.foldl_cons, ih (dedupStep acc f) x, List.mem_cons]
      unfold dedupStep
      by_cases hf : f ∈ acc
      · rw [if_pos hf]
        constructor
        · rintro (h | h)
          · exact Or.inl h
          · exact Or.inr (Or.inr h)
        · rintro (h | rfl | h)
          · exact Or.inl h
          · exact Or.inl hf
          · exact Or.inr h
      · rw [if_neg hf]
        simp only [List.mem_append, List.mem_singleton]
        tauto

theorem foldl_dedup_entries (entries : List ToolEntry) (acc : List PyFunc) :
    entries.foldl (fun acc2 t => dedupStep acc2 t.function) acc
      = (entries.map ToolEntry.function).foldl dedupStep acc := by
  rw [List.foldl_map]

theorem foldl_dedup_domains (tools : Catalog) (ds : List String) :
    ∀ acc : List PyFunc,
      ds.foldl (fun acc d => (get_tools_by_domain tools d).foldl
        (fun acc2 t => dedupStep acc2 t.function) acc) acc
      = (ds.flatMap (fun d => (get_tools_by_domain tools d).map
          ToolEntry.function)).foldl dedupStep acc := by
  induction ds with
  | nil => intro acc; simp
  | cons d rest ih =>
      intro acc
      simp only [List.foldl_cons, List.flatMap_cons, List.foldl_append]
      rw [foldl_dedup_entries, ih]

theorem foldl_dedup_domains2 (tools : Catalog) (ds : List String) :
    ∀ acc : List PyFunc,
      ds.foldl (fun acc d => ((get_tools_by_domain tools d).map
        ToolEntry.function).foldl dedupStep acc) acc
      = (ds.flatMap (fun d => (get_tools_by_domain tools d).map
          ToolEntry.function)).foldl dedupStep acc := by
  induction ds with
  | nil => intro acc; simp
  | cons d rest ih =>
      intro acc
      simp only [List.foldl_cons, List.flatMap_cons, List.foldl_append]
      rw [ih]

theorem filter_excludedBy_nil (fs : List PyFunc) :
    fs.filter (fun f => !(excludedBy [] f)) = fs := by
  rw [List.filter_eq_self]
  intro a _
  simp [excludedBy_nil]

theorem discover_eq_spec (tools : Catalog) (cfg : AgentConfig) :
    discover_tools_for_agent tools cfg = resolvedToolSetSpec tools cfg := by
  obtain ⟨ds, tgs, exc⟩ := cfg
  cases tgs with
  | none =>
      cases exc with
      | nil =>
          simp only [discover_tools_for_agent, resolvedToolSetSpec, dedupKeepFirst,
            foldl_dedup_domains, List.append_nil, List.isEmpty_nil, if_true,
            filter_excludedBy_nil]
      | cons x xs =>
          simp only [discover_tools_for_agent, resolvedToolSetSpec, dedupKeepFirst,
            foldl_dedup_domains, List.append_nil, List.isEmpty_cons,
            Bool.false_eq_true, if_false]
  | some ts =>
      cases exc with
      | nil =>
          simp only [discover_tools_for_agent, resolvedToolSetSpec, dedupKeepFirst,
            foldl_dedup_entries, List.foldl_append,
            List.isEmpty_nil, if_true, filter_excludedBy_nil]
          rw [foldl_dedup_domains2]
      | cons x xs =>
          simp only [discover_tools_for_agent, resolvedToolSetSpec, dedupKeepFirst,
            foldl_dedup_entries, List.foldl_append,
            List.isEmpty_cons, Bool.false_eq_true, if_false]
          rw [foldl_dedup_domains2]

theorem mem_dedupKeepFirst (fs : List PyFunc) (x : PyFunc) :
    x ∈ dedupKeepFirst fs ↔ x ∈ fs := by
  simpa using mem_foldl_dedupStep fs [] x

theorem mem_get_tools_by_tags_append (tools : Catalog) (ts1 ts2 : List String)
    (e : ToolEntry) :
    e ∈ get_tools_by_tags tools (ts1 ++ ts2) ↔
      e ∈ get_tools_by_tags tools ts1 ∨ e ∈ get_tools_by_tags tools ts2 := by
  simp only [mem_get_tools_by_tags, List.mem_append]
  constructor
  · rintro ⟨hm, t, (h | h), ht⟩
    · exact Or.inl ⟨hm, t, h, ht⟩
    · exact Or.inr ⟨hm, t, h, ht⟩
  · rintro (⟨hm, t, h, ht⟩ | ⟨hm, t, h, ht⟩)
    · exact ⟨hm, t, Or.inl h, ht⟩
    · exact ⟨hm, t, Or.inr h, ht⟩

/-! ### Helper lemma about the provider loop -/

theorem buildClientLoop_eq (env : ProviderEnv) :
    ∀ (ps : List String) (acc : Option BuildError),
      buildClientLoop env ps acc =
        match firstSuccess env ps with
        | some c => Except.ok c
        | none =>
            match lastRaised env ps acc with
            | some e => Except.error e
            | none => Except.error BuildError.noValidProviders := by
  intro ps
  induction ps with
  | nil => intro acc; cases acc <;> simp [buildClientLoop, firstSuccess, lastRaised]
  | cons p rest ih =>
      intro acc
      cases h : tryProvider env p with
      | none => simp [buildClientLoop, firstSuccess, lastRaised, h, ih]
      | some r =>
          cases r with
          | ok c => simp [buildClientLoop, firstSuccess, lastRaised, h]
          | error e => simp [buildClientLoop, firstSuccess, lastRaised, h, ih]

/-! ### Concrete sample values used by witnesses and counterexamples -/

def mdW : ToolMetadata :=
  { domain := "weather", name := "get_forecast",
    description := "Get weather forecast.", tags := ["forecast"], mock := true,
    requires_api_key := none, signature := 0, module := "weather.forecast" }

def fW : PyFunc :=
  { fid := 0, fname := "get_forecast", doc := some "Get weather forecast.",
    module := "weather.forecast", sigId := 0, toolMeta := some mdW }

def mdS : ToolMetadata :=
  { domain := "stock", name := "get_stock_price",
    description := "Get stock price.", tags := ["finance"], mock := true,
    requires_api_key := none, signature := 1, module := "stock.price" }

def fS : PyFunc :=
  { fid := 1, fname := "get_stock_price", doc := some "Get stock price.",
    module := "stock.price", sigId := 1, toolMeta := some mdS }

/-- A registrable entry whose metadata carries an empty domain: the registry's
register_tool accepts it since it validates nothing. -/
def mdE : ToolMetadata :=
  { domain := "", name := "anon", description := "Entry with empty domain.",
    tags := [], mock := true, requires_api_key := none, signature := 2,
    module := "m" }

def fE : PyFunc :=
  { fid := 2, fname := "anon", doc := none, module := "m", sigId := 2,
    toolMeta := some mdE }

def envCex : ProviderEnv :=
  { azure := Except.error (BuildError.missingCredential "AZURE_OPENAI_API_KEY"),
    openrouter := Except.ok { cid := 1 }, openai := Except.ok { cid := 2 } }

def mcCex : ModelConfig := { providers := ["azure", "bogus"], provider := none }

def regS0 : RegistryRefState :=
  { heap := [{ function := fW, metadata := mdW }],
    tools := [("weather.get_forecast", 0)] }

def sInit : ClassState :=
  { inst := some 0, nextId := 1,
    tools := [("weather.get_forecast", { function := fW, metadata := mdW })],
    initialized := true }

/-! ### Claims -/

/-- C1 (counterexample): the claim says get_tools_by_domain returns the empty
list whenever the queried domain is the empty string, but on a catalog holding
an entry whose metadata domain is the empty string (register_tool accepts such
an entry, validating nothing) the query with the empty domain returns that
entry, not the empty list. -/
theorem get_tools_by_domain_empty_domain_cex :
    get_tools_by_domain [(".anon", { function := fE, metadata := mdE })] ""
      = [{ function := fE, metadata := mdE }] ∧
    [({ function := fE, metadata := mdE } : ToolEntry)] ≠ [] := by
  constructor
  · rfl
  · decide

/-- C1 (amended): for every catalog state and domain string d,
get_tools_by_domain d returns exactly the entries whose metadata domain
equals d — every registered entry with domain d appears and no other entry
appears — in catalog insertion order (the result is an in-order sublist of
the catalog's entries); when d matches no entry the result is the empty
list, not an error; in particular the result for the empty domain string is
empty whenever every registered entry has a non-empty domain, as the data
model's invariant demands. -/
theorem get_tools_by_domain_exact (tools : Catalog) (d : String) :
    (∀ e, e ∈ get_tools_by_domain tools d ↔
      (∃ tid, (tid, e) ∈ tools) ∧ e.metadata.domain = d) ∧
    List.Sublist (get_tools_by_domain tools d) (tools.map Prod.snd) ∧
    ((∀ p ∈ tools, p.2.metadata.domain ≠ d) →
      get_tools_by_domain tools d = []) ∧
    (d = "" → (∀ p ∈ tools, p.2.metadata.domain ≠ "") →
      get_tools_by_domain tools d = []) := by
  have hnm : (∀ p ∈ tools, p.2.metadata.domain ≠ d) →
      get_tools_by_domain tools d = [] := by
    intro h
    have hf : tools.filter (fun p => decide (p.2.metadata.domain = d)) = [] := by
      rw [List.filter_eq_nil_iff]
      intro p hp
      simpa using h p hp
    simp [get_tools_by_domain, hf]
  refine ⟨fun e => mem_get_tools_by_domain tools d e, ?_, hnm, ?_⟩
  · exact List.Sublist.map Prod.snd (List.filter_sublist tools)
  · intro hd h
    subst hd
    exact hnm h

/-- C1 (witness): the amended theorem applied to a concrete one-entry catalog
and a domain matching nothing. -/
theorem get_tools_by_domain_exact_witness :
    get_tools_by_domain [("weather.get_forecast",
      { function := fW, metadata := mdW })] "stock" = [] :=
  (get_tools_by_domain_exact
    [("weather.get_forecast", { function := fW, metadata := mdW })]
    "stock").2.2.1 (by decide)

/-- C2: tag matching is OR — the two-tag query returns exactly the union of
the single-tag queries, and in general an entry is returned iff it is in the
catalog and its tag set intersects the queried tag list. -/
theorem get_tools_by_tags_or (tools : Catalog) (a b : String) :
    (∀ e, e ∈ get_tools_by_tags tools [a, b] ↔
      (e ∈ get_tools_by_tags tools [a] ∨ e ∈ get_tools_by_tags tools [b])) ∧
    (∀ ts e, e ∈ get_tools_by_tags tools ts ↔
      (e ∈ tools.map Prod.snd ∧ ∃ t ∈ ts, t ∈ e.metadata.tags)) := by
  refine ⟨fun e => ?_, fun ts e => mem_get_tools_by_tags tools ts e⟩
  have h : ([a, b] : List String) = [a] ++ [b] := rfl
  rw [h]
  exact mem_get_tools_by_tags_append tools [a] [b] e

/-- C3: round-trip — registering a tool and immediately looking up the same
identifier returns exactly the registered callable and metadata. -/
theorem register_get_roundtrip (tools : Catalog) (tid : String) (f : PyFunc)
    (m : ToolMetadata) :
    get_tool (register_tool tools tid f m) tid
      = some { function := f, metadata := m } :=
  dictGet_dictInsert_self tools tid { function := f, metadata := m }

/-- C4: collision is last-write-wins — on a catalog with unique identifiers
(dict keys are unique), registering twice under the same identifier leaves
exactly one entry for it, equal to the second registration; the second
registration does not change the total count; and the at-most-one-entry-per-
identifier invariant is preserved. -/
theorem register_last_write_wins (tools : Catalog) (tid : String)
    (f1 : PyFunc) (m1 : ToolMetadata) (f2 : PyFunc) (m2 : ToolMetadata)
    (h : (tools.map Prod.fst).Nodup) :
    (register_tool (register_tool tools tid f1 m1) tid f2 m2).filter
        (fun p => decide (p.1 = tid))
      = [(tid, { function := f2, metadata := m2 })] ∧
    (register_tool (register_tool tools tid f1 m1) tid f2 m2).length
      = (register_tool tools tid f1 m1).length ∧
    ((register_tool (register_tool tools tid f1 m1) tid f2 m2).map
      Prod.fst).Nodup := by
  have h1 : ((register_tool tools tid f1 m1).map Prod.fst).Nodup :=
    nodup_keys_dictInsert tools tid { function := f1, metadata := m1 } h
  refine ⟨filter_key_dictInsert _ tid _ h1, ?_,
    nodup_keys_dictInsert _ tid _ h1⟩
  exact length_dictInsert_mem _ tid _
    (keys_dictInsert_self tools tid { function := f1, metadata := m1 })

/-- C4 (witness): last-write-wins evaluated on the empty catalog. -/
theorem register_last_write_wins_witness :
    (register_tool (register_tool [] "weather.x" fW mdW) "weather.x" fS mdS).filter
        (fun p => decide (p.1 = "weather.x"))
      = [("weather.x", { function := fS, metadata := mdS })] ∧
    (register_tool (register_tool [] "weather.x" fW mdW) "weather.x" fS mdS).length
      = (register_tool [] "weather.x" fW mdW).length ∧
    ((register_tool (register_tool [] "weather.x" fW mdW) "weather.x" fS mdS).map
      Prod.fst).Nodup :=
  register_last_write_wins [] "weather.x" fW mdW fS mdS (by decide)

/-- C5: tool-set resolution — the list _discover_tools_for_agent assembles
equals the spec's ResolvedToolSet (the first-seen-ordered, first-occurrence-
deduplicated union of the tools of the configured domains and the tag-matched
tools, minus the tools whose marker name is excluded); and in particular for
the config with tool_domains = weather and exclude_tools = get_forecast, a
callable is resolved iff some catalog entry of the weather domain carries it
and its marker name is not get_forecast. -/
theorem resolved_tool_set_correct (tools : Catalog) (cfg : AgentConfig) :
    discover_tools_for_agent tools cfg = resolvedToolSetSpec tools cfg ∧
    (∀ f, f ∈ discover_tools_for_agent tools
        { tool_domains := ["weather"], tool_tags := none,
          exclude_tools := ["get_forecast"] } ↔
      ((∃ tid e, (tid, e) ∈ tools ∧ e.metadata.domain = "weather" ∧
          e.function = f) ∧
        excludedBy ["get_forecast"] f = false)) := by
  refine ⟨discover_eq_spec tools cfg, fun f => ?_⟩
  rw [discover_eq_spec]
  simp only [resolvedToolSetSpec, List.flatMap_cons, List.flatMap_nil,
    List.append_nil, List.mem_filter, mem_dedupKeepFirst, List.mem_map,
    Bool.not_eq_eq_eq_not, Bool.not_true]
  constructor
  · rintro ⟨⟨e, he, rfl⟩, hexc⟩
    rw [mem_get_tools_by_domain] at he
    obtain ⟨⟨tid, htid⟩, hdom⟩ := he
    exact ⟨⟨tid, e, htid, hdom, rfl⟩, hexc⟩
  · rintro ⟨⟨tid, e, htid, hdom, rfl⟩, hexc⟩
    refine ⟨⟨e, ?_, rfl⟩, hexc⟩
    exact (mem_get_tools_by_domain tools "weather" e).mpr ⟨⟨tid, htid⟩, hdom⟩

/-- C6 (counterexample): with a provider list whose candidates all fail —
azure raising a missing-credential exception, then an unsupported provider
name — the propagated error is azure's exception, not the failure of the last
failing candidate (the unsupported name), contradicting the claim that the
last failure is propagated when every candidate fails. -/
theorem build_chat_client_last_failure_cex :
    (∀ p ∈ mcCex.providers, (candidateFailure envCex p).isSome = true) ∧
    mcCex.providers.getLast? = some "bogus" ∧
    candidateFailure envCex "bogus"
      = some (BuildError.unsupportedProvider "bogus") ∧
    build_chat_client envCex mcCex
      = Except.error (BuildError.missingCredential "AZURE_OPENAI_API_KEY") ∧
    BuildError.missingCredential "AZURE_OPENAI_API_KEY"
      ≠ BuildError.unsupportedProvider "bogus" := by
  decide

/-- C6 (amended): client construction attempts each configured provider in
order (falling back to the lower-cased legacy single provider field, default
azure, when the providers list is absent or empty); a provider whose builder
raises records the exception and progression continues, while an unsupported
provider name progresses without recording anything; the result is the first
successfully constructed client; when no candidate succeeds the last recorded
exception is propagated, and when no exception was recorded (every candidate
was an unsupported name) a generic no-valid-providers error is raised
instead. -/
theorem build_chat_client_fallback (env : ProviderEnv) (mc : ModelConfig) :
    build_chat_client env mc =
      match firstSuccess env (resolveProviders mc) with
      | some c => Except.ok c
      | none =>
          match lastRaised env (resolveProviders mc) none with
          | some e => Except.error e
          | none => Except.error BuildError.noValidProviders :=
  buildClientLoop_eq env (resolveProviders mc) none

/-- C7 (counterexample): list_all_tools returns a shallow copy — the entry
reachable through the returned mapping at address 0 is the catalog's own
entry, and mutating it in place changes the catalog's contents, contradicting
the claim that mutation through the returned mapping leaves the catalog and
every registered entry unchanged. -/
theorem list_all_tools_shared_entries_cex :
    ("weather.get_forecast", 0) ∈ list_all_tools regS0 ∧
    catalogView { heap := regS0.heap.set 0 ({ function := fS, metadata := mdS }),
                  tools := regS0.tools }
      ≠ catalogView regS0 := by
  decide

/-- C7 (amended): list_all_tools returns a copy of the top-level mapping
holding exactly the catalog's identifier-to-entry bindings, but the copy
is shallow: the entry objects are shared, so overwriting the entry store at
an address reachable through the returned mapping changes the entry the
catalog itself yields for the corresponding identifier. -/
theorem list_all_tools_shallow_copy (s : RegistryRefState) (k : String)
    (r : Nat) (e2 : ToolEntry) (hmem : (k, r) ∈ list_all_tools s)
    (hr : r < s.heap.length) :
    list_all_tools s = s.tools ∧
    (k, some e2) ∈ catalogView { heap := s.heap.set r e2, tools := s.tools } := by
  refine ⟨rfl, ?_⟩
  have hm2 : ((k, r) : String × Nat) ∈ s.tools := hmem
  refine List.mem_map.mpr ⟨(k, r), hm2, ?_⟩
  simp [List.getElem?_set_self hr]

/-- C7 (witness): the amended theorem applied to a concrete one-entry
registry state. -/
theorem list_all_tools_shallow_copy_witness :
    list_all_tools regS0 = regS0.tools ∧
    ("weather.get_forecast",
        some ({ function := fS, metadata := mdS } : ToolEntry)) ∈
      catalogView { heap := regS0.heap.set 0 ({ function := fS, metadata := mdS }),
                    tools := regS0.tools } :=
  list_all_tools_shallow_copy regS0 "weather.get_forecast" 0
    { function := fS, metadata := mdS } (by decide) (by decide)

/-- C8 (counterexample): the claim says a registration with an empty
identifier is not accepted into the catalog, but register_tool validates
nothing: registering under the empty identifier inserts the entry and the
empty identifier is immediately retrievable. -/
theorem register_tool_empty_id_accepted :
    register_tool [] "" fW mdW = [("", { function := fW, metadata := mdW })] ∧
    get_tool (register_tool [] "" fW mdW) ""
      = some { function := fW, metadata := mdW } :=
  ⟨rfl, rfl⟩

/-- C8 (amended): register_tool performs no validation at all — for every
identifier (the empty string included), callable and metadata it inserts or
silently overwrites the entry with no error condition, leaving every other
identifier's binding unchanged. -/
theorem register_tool_no_validation (tools : Catalog) (tid : String)
    (f : PyFunc) (m : ToolMetadata) :
    get_tool (register_tool tools tid f m) tid
      = some { function := f, metadata := m } ∧
    ∀ tid2, tid2 ≠ tid →
      get_tool (register_tool tools tid f m) tid2 = get_tool tools tid2 :=
  ⟨dictGet_dictInsert_self tools tid { function := f, metadata := m },
    fun tid2 h2 =>
      dictGet_dictInsert_ne tools tid tid2 { function := f, metadata := m } h2⟩

/-- C8 (witness): the amended theorem applied to the empty catalog and a
distinct identifier. -/
theorem register_tool_no_validation_witness :
    get_tool (register_tool [] "weather.x" fW mdW) "stock.y"
      = get_tool ([] : Catalog) "stock.y" :=
  (register_tool_no_validation [] "weather.x" fW mdW).2 "stock.y" (by decide)

/-- C9: the tool marker returns the same callable unchanged aside from the
attached metadata record; in the metadata, name defaults to the callable's
own identifier when omitted, description defaults to the callable's
docstring trimmed of surrounding whitespace when omitted, and when the
callable has no docstring a generic description is synthesized from the
name. -/
theorem tool_marker_defaults (domain : String) (name description : Option String)
    (tags : Option (List String)) (mock : Bool) (rak : Option String)
    (func : PyFunc) :
    (tool domain name description tags mock rak func).fid = func.fid ∧
    (tool domain name description tags mock rak func).fname = func.fname ∧
    (tool domain name description tags mock rak func).doc = func.doc ∧
    (tool domain name description tags mock rak func).module = func.module ∧
    (tool domain name description tags mock rak func).sigId = func.sigId ∧
    ∃ md, (tool domain name description tags mock rak func).toolMeta = some md ∧
      (name = none → md.name = func.fname) ∧
      (description = none → func.doc = none →
        md.description = (func.fname ++ " function").trim) ∧
      (description = none → ∀ d, func.doc = some d → d ≠ "" →
        md.description = d.trim) := by
  refine ⟨rfl, rfl, rfl, rfl, rfl, ?_⟩
  refine ⟨_, rfl, ?_, ?_, ?_⟩
  · intro h
    subst h
    rfl
  · intro h hdoc
    subst h
    simp [tool, pyOrStr, hdoc]
  · intro h d hdoc hne
    subst h
    simp [tool, pyOrStr, hdoc, hne]

/-- C9 (witness): the marker with name and description omitted, applied to a
concrete callable with a docstring. -/
theorem tool_marker_defaults_witness :
    ∃ md, (tool "weather" none none none false none fW).toolMeta = some md ∧
      md.name = fW.fname ∧ md.description = ("Get weather forecast.").trim := by
  obtain ⟨-, -, -, -, -, md, hmd, hname, -, hdoc⟩ :=
    tool_marker_defaults "weather" none none none false none fW
  exact ⟨md, hmd, hname rfl, hdoc rfl "Get weather forecast." rfl (by decide)⟩

/-- C10: the ToolRegistry singleton — a construction following any
construction returns the same instance; after a construction the class is
initialized; and a construction on an already-initialized class state leaves
the shared tool mapping unchanged (only the very first initialization resets
it to empty). -/
theorem singleton_construct (s : ClassState) :
    (ToolRegistry_construct ((ToolRegistry_construct s).1)).2
      = (ToolRegistry_construct s).2 ∧
    (ToolRegistry_construct s).1.initialized = true ∧
    (s.initialized = true → (ToolRegistry_construct s).1.tools = s.tools) := by
  obtain ⟨oi, n, tl, ini⟩ := s
  cases oi <;> cases ini <;>
    simp [ToolRegistry_construct, ToolRegistry_new, ToolRegistry_init]

/-- C10 (witness): constructing again on an initialized class state with a
registered tool returns the same instance and keeps the tool mapping. -/
theorem singleton_construct_witness :
    (ToolRegistry_construct ((ToolRegistry_construct sInit).1)).2
      = (ToolRegistry_construct sInit).2 ∧
    (ToolRegistry_construct sInit).1.tools = sInit.tools :=
  ⟨(singleton_construct sInit).1, (singleton_construct sInit).2.2 rfl⟩

end MSAF
